import Mathlib

/-!
Shallow embedding of the Game-of-Life wasm crate (`src/lib.rs`) and proofs
about its specification.

The Rust source defines a `Cell` enum (`Dead = 0`, `Alive = 1`), a `Universe`
struct holding two cell buffers (`cells: [Vec<Cell>; 2]`) selected by
`cells_idx: usize`, and the operations `new`, `tick`, `toggle_cell`,
`live_neighbor_count`, `get_index`, `render` (via `fmt::Display`).

Modelling conventions:
* `u32`/`usize` values are `Nat`; arithmetic that Rust performs in `u32`
  and then casts to `usize` (which wraps in release builds on the 32-bit
  wasm target) carries an explicit `% 2 ^ 32`.
* Slice indexing `buf[idx]` (which panics when out of range) is modelled by
  `List.getD _ _ Cell.Dead` / `List.set`; every theorem below only invokes
  it under hypotheses that put `idx` in range, where the two agree.
* The host randomness source `Math.random() -> f64 in [0,1)` is modelled as
  a sequence of rationals `rand : Nat → ℚ` (the `i`-th call returns
  `rand i`); the comparison `random() < 0.5` is exact in `f64` because
  `0.5` is a power of two, so `ℚ` comparison against `1/2` is faithful.
* The `alert` side effect of `new` is modelled by returning the number of
  alert calls alongside the universe.
* `render` returns `Option String`: `slice::chunks` panics when the chunk
  size is `0`, so a universe with `width = 0` yields `none` (the panic);
  otherwise `some` of the rendered text.
-/

namespace WasmGameOfLife

/-- Rust `enum Cell { Dead = 0, Alive = 1 }`. -/
inductive Cell : Type
  | Dead : Cell
  | Alive : Cell
deriving DecidableEq, Repr

/-- Rust `Cell::toggle`: `Dead => Alive, Alive => Dead` (modelled as a pure
function; the Rust method assigns the result back through `&mut self`). -/
def Cell.toggle : Cell → Cell
  | Cell.Dead => Cell.Alive
  | Cell.Alive => Cell.Dead

/-- The discriminant cast `cell as u8` used by `live_neighbor_count`
(`Dead = 0`, `Alive = 1`, from the `#[repr(u8)]` declaration). -/
def Cell.toNat : Cell → Nat
  | Cell.Dead => 0
  | Cell.Alive => 1

/-- Modulus of `u32` (and of `usize` on the 32-bit wasm target). -/
def U32_MOD : Nat := 2 ^ 32

/-- Rust `struct Universe { width: u32, height: u32, cells: [Vec<Cell>; 2],
cells_idx: usize }`.  The two-element array is modelled as a function from
the index to the buffer; only indices `0` and `1` are ever used (the
invariant `cells_idx < 2` is maintained by all operations, see below). -/
structure Universe where
  width : Nat
  height : Nat
  cells : Nat → List Cell
  cells_idx : Nat

/-- Slice read `buf[i]`.  Rust panics when `i` is out of range; all uses
below are proved in range, where `getD` returns the actual element. -/
def cellAt (l : List Cell) (i : Nat) : Cell :=
  l.getD i Cell.Dead

/-- Rust `Universe::get_index`: `(row * self.width + column) as usize`.
The multiplication and addition happen in `u32`, hence the modulus. -/
def Universe.get_index (u : Universe) (row column : Nat) : Nat :=
  (row * u.width + column) % U32_MOD

/-- Rust `Universe::cells(&self)`: the currently active buffer
`&self.cells[self.cells_idx]`. -/
def Universe.curCells (u : Universe) : List Cell :=
  u.cells u.cells_idx

/-- Rust `Universe::new(width, height)`.  Takes the randomness source as an
explicit sequence of draws; returns the universe together with the number
of `alert` calls made.  `width * height` is a `u32` multiplication. -/
def Universe.new (width height : Nat) (rand : Nat → ℚ) : Universe × Nat :=
  let alerts := if width % 8 ≠ 0 ∨ height % 8 ≠ 0 then 1 else 0
  let width' := if width % 8 ≠ 0 ∨ height % 8 ≠ 0 then width / 8 * 8 else width
  let height' := if width % 8 ≠ 0 ∨ height % 8 ≠ 0 then height / 8 * 8 else height
  let n := width' * height' % U32_MOD
  let cells := (List.range n).map (fun i =>
    if rand i < 1 / 2 then Cell.Alive else Cell.Dead)
  let cells_back := List.replicate n Cell.Alive
  (⟨width', height', fun j => if j = 0 then cells else cells_back, 0⟩, alerts)

/-- The `match (cell, live_neighbors)` expression inside `Universe::tick`,
with the guards `x if x < 2`, `x if x < 4` resolved in order exactly as in
the Rust `match` (the final catch-all arm `(otherwise, _) => otherwise` can
only be reached with `otherwise = Dead`, so it returns `Dead`). -/
def next_cell : Cell → Nat → Cell
  | Cell.Alive, x => if x < 2 then Cell.Dead else if x < 4 then Cell.Alive else Cell.Dead
  | Cell.Dead, x => if x = 3 then Cell.Alive else Cell.Dead

/-- Rust `Universe::live_neighbor_count`: explicit wrap-around of the four
cardinal coordinates, then eight `+= self.cells()[idx] as u8` additions in
source order (the sum is at most `8`, so `u8` arithmetic cannot wrap). -/
def Universe.live_neighbor_count (u : Universe) (row column : Nat) : Nat :=
  let north := if row = 0 then u.height - 1 else row - 1
  let south := if row = u.height - 1 then 0 else row + 1
  let west := if column = 0 then u.width - 1 else column - 1
  let east := if column = u.width - 1 then 0 else column + 1
  let count := 0
  let count := count + (cellAt u.curCells (u.get_index north west)).toNat
  let count := count + (cellAt u.curCells (u.get_index north column)).toNat
  let count := count + (cellAt u.curCells (u.get_index north east)).toNat
  let count := count + (cellAt u.curCells (u.get_index row west)).toNat
  let count := count + (cellAt u.curCells (u.get_index row east)).toNat
  let count := count + (cellAt u.curCells (u.get_index south west)).toNat
  let count := count + (cellAt u.curCells (u.get_index south column)).toNat
  let count := count + (cellAt u.curCells (u.get_index south east)).toNat
  count

/-- Rust `Universe::tick`.  The loop writes only into
`self.cells[new_cells_idx]` while every read (`self.cells()` and
`live_neighbor_count`) goes through `self.cells_idx`; since
`new_cells_idx = cells_idx ^ 1 ≠ cells_idx`, the buffer being read is
unchanged for the whole loop, so the loop is modelled by threading only the
scratch buffer through the fold while reading from the untouched `u`. -/
def Universe.tick (u : Universe) : Universe :=
  let new_cells_idx := u.cells_idx ^^^ 1
  let written :=
    (List.range u.height).foldl
      (fun buf row =>
        (List.range u.width).foldl
          (fun buf col =>
            let idx := u.get_index row col
            let cell := cellAt u.curCells idx
            let live_neighbors := u.live_neighbor_count row col
            buf.set idx (next_cell cell live_neighbors))
          buf)
      (u.cells new_cells_idx)
  { u with
    cells := fun j => if j = new_cells_idx then written else u.cells j
    cells_idx := new_cells_idx }

/-- Rust `Universe::toggle_cell`: `self.cells_mut()[idx].toggle()` mutates
the active buffer in place at `idx = get_index(row, column)`. -/
def Universe.toggle_cell (u : Universe) (row column : Nat) : Universe :=
  let idx := u.get_index row column
  { u with
    cells := fun j =>
      if j = u.cells_idx then
        (u.cells u.cells_idx).set idx (cellAt (u.cells u.cells_idx) idx).toggle
      else u.cells j }

/-- The glyph chosen per cell by the `fmt::Display` impl:
`"◼️"` (U+25FC U+FE0F) for `Dead`, `"◻️"` (U+25FB U+FE0F) for `Alive`. -/
def cellGlyph (c : Cell) : String :=
  if c = Cell.Dead then "◼️" else "◻️"

/-- One row of output: each cell's glyph via `write!`, then `writeln!`. -/
def lineStr (line : List Cell) : String :=
  String.join (line.map cellGlyph) ++ "\n"

/-- Rust `slice::chunks(k)` as a list of chunks.  Rust's `chunks` panics
when `k = 0`; the `k = 0` branch here is a placeholder that is never used
because `Universe.render` models that panic as `none` before chunking. -/
def chunksList (k : Nat) (l : List Cell) : List (List Cell) :=
  if k = 0 then []
  else if l = [] then []
  else l.take k :: chunksList k (l.drop k)
termination_by l.length
decreasing_by
  simp only [List.length_drop]
  rename_i hk hl
  have hpos : 0 < l.length := List.length_pos.mpr hl
  omega

/-- Rust `Universe::render` = `self.to_string()`, i.e. the `fmt::Display`
impl: iterate `self.cells().chunks(self.width as usize)`, print one glyph
per cell and a newline per chunk.  `chunks(0)` panics, hence `none` when
`width = 0`. -/
def Universe.render (u : Universe) : Option String :=
  if u.width = 0 then none
  else some (String.join ((chunksList u.width u.curCells).map lineStr))

/-- The state invariant of the spec: the selector is `0` or `1` and both
buffers have length `width * height`. -/
def Universe.inv (u : Universe) : Prop :=
  u.cells_idx < 2 ∧
  (u.cells 0).length = u.width * u.height ∧
  (u.cells 1).length = u.width * u.height

instance (u : Universe) : Decidable u.inv := by
  unfold Universe.inv
  exact inferInstance

/-- Row-major list of all `(row, col)` pairs, matching the iteration order
of the nested `for` loops in `tick`. -/
def pairList : Nat → Nat → List (Nat × Nat)
  | 0, _ => []
  | h + 1, w => pairList h w ++ (List.range w).map (fun c => (h, c))

/-- A small concrete universe used to witness the theorems: 2×2, current
buffer `[Alive, Dead, Dead, Alive]`, scratch pre-filled with `Alive`. -/
def sampleU : Universe :=
  ⟨2, 2,
    fun j => if j = 0 then [Cell.Alive, Cell.Dead, Cell.Dead, Cell.Alive]
             else List.replicate 4 Cell.Alive,
    0⟩

/-- The 8×8 universe of the spec's toroidal test: only cell (0,0) alive. -/
def onlyTopLeft : Universe :=
  ⟨8, 8,
    fun j => if j = 0 then Cell.Alive :: List.replicate 63 Cell.Dead
             else List.replicate 64 Cell.Alive,
    0⟩

/-- A concrete randomness sequence alternating 0, 1, 0, 1, … -/
def halfRand : Nat → ℚ := fun i => ((i % 2 : Nat) : ℚ)

/-- The same current generation as `sampleU`, stored in the other buffer
slot, with a different scratch buffer and selector 1. -/
def sampleV : Universe :=
  ⟨2, 2,
    fun j => if j = 1 then [Cell.Alive, Cell.Dead, Cell.Dead, Cell.Alive]
             else List.replicate 4 Cell.Dead,
    1⟩

/-!
## Helper lemmas
-/

theorem toNat_le_one : ∀ c : Cell, c.toNat ≤ 1
  | Cell.Dead => by simp [Cell.toNat]
  | Cell.Alive => by simp [Cell.toNat]

theorem getD_set_self {l : List Cell} {i : Nat} {c : Cell} (h : i < l.length) :
    (l.set i c).getD i Cell.Dead = c := by
  have hl : i < (l.set i c).length := by simpa using h
  rw [List.getD_eq_getElem _ _ hl]
  exact List.getElem_set_self hl

theorem getD_set_ne {l : List Cell} {i j : Nat} {c : Cell} (h : i ≠ j) :
    (l.set i c).getD j Cell.Dead = l.getD j Cell.Dead := by
  simp [List.getD_eq_getD_get?, List.get?_eq_getElem?, List.getElem?_set_ne h]

theorem foldl_set_length (idx : Nat × Nat → Nat) (f : Nat × Nat → Cell) :
    ∀ (ps : List (Nat × Nat)) (buf : List Cell),
      (ps.foldl (fun b q => b.set (idx q) (f q)) buf).length = buf.length := by
  intro ps
  induction ps with
  | nil => intro buf; rfl
  | cons q ps ih => intro buf; rw [List.foldl_cons, ih, List.length_set]

theorem foldl_set_getD_of_ne (idx : Nat × Nat → Nat) (f : Nat × Nat → Cell) (i : Nat) :
    ∀ (ps : List (Nat × Nat)) (buf : List Cell), (∀ q ∈ ps, idx q ≠ i) →
      (ps.foldl (fun b q => b.set (idx q) (f q)) buf).getD i Cell.Dead =
        buf.getD i Cell.Dead := by
  intro ps
  induction ps with
  | nil => intro buf _; rfl
  | cons q ps ih =>
    intro buf hne
    rw [List.foldl_cons, ih _ (fun q' hq' => hne q' (List.mem_cons_of_mem q hq')),
      getD_set_ne (hne q (List.mem_cons_self q ps))]

theorem foldl_set_getD_eq (idx : Nat × Nat → Nat) (f : Nat × Nat → Cell) :
    ∀ (ps : List (Nat × Nat)) (buf : List Cell) (p : Nat × Nat),
      p ∈ ps → (∀ q ∈ ps, idx q = idx p → q = p) → idx p < buf.length →
      (ps.foldl (fun b q => b.set (idx q) (f q)) buf).getD (idx p) Cell.Dead = f p := by
  intro ps
  induction ps with
  | nil =>
    intro buf p hp
    exact absurd hp (List.not_mem_nil p)
  | cons q ps ih =>
    intro buf p hp hinj hlt
    rw [List.foldl_cons]
    by_cases hmem : p ∈ ps
    · exact ih _ p hmem (fun q' hq' he => hinj q' (List.mem_cons_of_mem q hq') he)
        (by rw [List.length_set]; exact hlt)
    · have hpq : p = q := by
        rcases List.mem_cons.mp hp with h | h
        · exact h
        · exact absurd h hmem
      subst hpq
      rw [foldl_set_getD_of_ne]
      · exact getD_set_self hlt
      · intro q' hq' he
        have : q' = p := hinj q' (List.mem_cons_of_mem p hq') he
        exact hmem (this ▸ hq')

theorem foldl_pairList (f : List Cell → Nat → Nat → List Cell) (h w : Nat)
    (init : List Cell) :
    (List.range h).foldl (fun b r => (List.range w).foldl (fun b c => f b r c) b) init
      = (pairList h w).foldl (fun b p => f b p.1 p.2) init := by
  induction h generalizing init with
  | zero => rfl
  | succ h ih =>
    rw [List.range_succ, List.foldl_append, pairList, List.foldl_append, ih,
      List.foldl_map]
    simp

theorem mem_pairList {h w : Nat} {p : Nat × Nat} :
    p ∈ pairList h w ↔ p.1 < h ∧ p.2 < w := by
  induction h with
  | zero => simp [pairList]
  | succ h ih =>
    simp only [pairList, List.mem_append, List.mem_map, List.mem_range, ih]
    constructor
    · rintro (⟨h1, h2⟩ | ⟨c, hc, rfl⟩)
      · exact ⟨Nat.lt_succ_of_lt h1, h2⟩
      · exact ⟨Nat.lt_succ_self h, hc⟩
    · rintro ⟨h1, h2⟩
      rcases Nat.lt_succ_iff_lt_or_eq.mp h1 with h1 | heq
      · exact Or.inl ⟨h1, h2⟩
      · exact Or.inr ⟨p.2, h2, by rw [← heq]⟩

theorem index_lt {w h r c : Nat} (hr : r < h) (hc : c < w) : r * w + c < w * h :=
  calc r * w + c < r * w + w := by omega
  _ = (r + 1) * w := by ring
  _ ≤ h * w := Nat.mul_le_mul_right w hr
  _ = w * h := Nat.mul_comm h w

theorem get_index_eq (u : Universe) {r c : Nat} (hr : r < u.height) (hc : c < u.width)
    (hb : u.width * u.height < U32_MOD) : u.get_index r c = r * u.width + c := by
  unfold Universe.get_index
  exact Nat.mod_eq_of_lt (Nat.lt_trans (index_lt hr hc) hb)

theorem index_inj {w r c r' c' : Nat} (hc : c < w) (hc' : c' < w)
    (he : r' * w + c' = r * w + c) : r' = r ∧ c' = c := by
  have hw : 0 < w := Nat.lt_of_le_of_lt (Nat.zero_le c) hc
  have h1 : (w * r' + c') / w = (w * r + c) / w := by
    rw [Nat.mul_comm w r', Nat.mul_comm w r, he]
  rw [Nat.mul_add_div hw, Nat.mul_add_div hw, Nat.div_eq_of_lt hc,
    Nat.div_eq_of_lt hc'] at h1
  simp only [Nat.add_zero] at h1
  subst h1
  exact ⟨rfl, Nat.add_left_cancel (by omega : r' * w + c' = r' * w + c)⟩

theorem cur_length (u : Universe) (hu : u.inv) :
    u.curCells.length = u.width * u.height := by
  obtain ⟨hidx, h0, h1⟩ := hu
  have : u.cells_idx = 0 ∨ u.cells_idx = 1 := by omega
  unfold Universe.curCells
  rcases this with h | h <;> rw [h] <;> assumption

theorem scratch_length (u : Universe) (hu : u.inv) :
    (u.cells (u.cells_idx ^^^ 1)).length = u.width * u.height := by
  obtain ⟨hidx, h0, h1⟩ := hu
  have : u.cells_idx = 0 ∨ u.cells_idx = 1 := by omega
  rcases this with h | h <;> rw [h] <;> assumption

theorem tick_cells_idx (u : Universe) : (u.tick).cells_idx = u.cells_idx ^^^ 1 := rfl

theorem tick_curCells_eq (u : Universe) :
    (u.tick).curCells =
      (pairList u.height u.width).foldl
        (fun buf p => buf.set (u.get_index p.1 p.2)
          (next_cell (cellAt u.curCells (u.get_index p.1 p.2))
            (u.live_neighbor_count p.1 p.2)))
        (u.cells (u.cells_idx ^^^ 1)) := by
  show (if u.cells_idx ^^^ 1 = u.cells_idx ^^^ 1 then _ else _) = _
  rw [if_pos rfl]
  exact foldl_pairList
    (fun b r c => b.set (u.get_index r c)
      (next_cell (cellAt u.curCells (u.get_index r c)) (u.live_neighbor_count r c)))
    u.height u.width (u.cells (u.cells_idx ^^^ 1))

theorem tick_curCells_length (u : Universe) (hu : u.inv) :
    (u.tick).curCells.length = u.width * u.height := by
  rw [tick_curCells_eq, foldl_set_length, scratch_length u hu]

theorem tick_getD (u : Universe) (hu : u.inv) (hb : u.width * u.height < U32_MOD)
    {r c : Nat} (hr : r < u.height) (hc : c < u.width) :
    (u.tick).curCells.getD (r * u.width + c) Cell.Dead =
      next_cell (cellAt u.curCells (r * u.width + c)) (u.live_neighbor_count r c) := by
  rw [tick_curCells_eq]
  have hidx : ∀ q : Nat × Nat, q.1 < u.height → q.2 < u.width →
      u.get_index q.1 q.2 = q.1 * u.width + q.2 :=
    fun q h1 h2 => get_index_eq u h1 h2 hb
  have hp : ((r, c) : Nat × Nat) ∈ pairList u.height u.width := mem_pairList.mpr ⟨hr, hc⟩
  have hinj : ∀ q ∈ pairList u.height u.width,
      u.get_index q.1 q.2 = u.get_index (r, c).1 (r, c).2 → q = (r, c) := by
    intro q hq he
    obtain ⟨hq1, hq2⟩ := mem_pairList.mp hq
    rw [hidx q hq1 hq2, hidx (r, c) hr hc] at he
    obtain ⟨e1, e2⟩ := index_inj hc hq2 he
    calc q = (q.1, q.2) := rfl
    _ = (r, c) := by rw [e1, e2]
  have hlt : u.get_index (r, c).1 (r, c).2 < (u.cells (u.cells_idx ^^^ 1)).length := by
    rw [hidx (r, c) hr hc, scratch_length u hu]
    exact index_lt hr hc
  have key2 : (List.foldl
      (fun buf p => buf.set (u.get_index p.1 p.2)
        (next_cell (cellAt u.curCells (u.get_index p.1 p.2)) (u.live_neighbor_count p.1 p.2)))
      (u.cells (u.cells_idx ^^^ 1)) (pairList u.height u.width)).getD
        (u.get_index r c) Cell.Dead =
      next_cell (cellAt u.curCells (u.get_index r c)) (u.live_neighbor_count r c) :=
    foldl_set_getD_eq (fun q => u.get_index q.1 q.2)
      (fun q => next_cell (cellAt u.curCells (u.get_index q.1 q.2))
        (u.live_neighbor_count q.1 q.2))
      (pairList u.height u.width) (u.cells (u.cells_idx ^^^ 1)) (r, c) hp hinj hlt
  have hidx' : u.get_index r c = r * u.width + c := get_index_eq u hr hc hb
  rw [hidx'] at key2
  exact key2

/-- C1: on a well-formed universe with positive dimensions, `tick` makes the
new current buffer hold, at linear index `r*width+c`, the transition rule
applied to the pre-step current cell at `(r,c)` and its pre-step toroidal
live-neighbor count (both read from the pre-step current buffer only), and
the active-buffer selector flips; the rule maps Alive with fewer than 2
neighbors to Dead, Alive with 2 or 3 to Alive, Alive with 4 or more to
Dead, Dead with exactly 3 to Alive, and Dead otherwise stays Dead. -/
theorem tick_spec (u : Universe) (hu : u.inv) (hb : u.width * u.height < U32_MOD)
    (hw : 0 < u.width) (hh : 0 < u.height) (r c : Nat)
    (hr : r < u.height) (hc : c < u.width) :
    ((u.tick).curCells.getD (r * u.width + c) Cell.Dead =
      next_cell (cellAt u.curCells (r * u.width + c)) (u.live_neighbor_count r c)) ∧
    (u.tick).cells_idx = u.cells_idx ^^^ 1 ∧
    (∀ n, n < 2 → next_cell Cell.Alive n = Cell.Dead) ∧
    (∀ n, n = 2 ∨ n = 3 → next_cell Cell.Alive n = Cell.Alive) ∧
    (∀ n, 4 ≤ n → next_cell Cell.Alive n = Cell.Dead) ∧
    next_cell Cell.Dead 3 = Cell.Alive ∧
    (∀ n, n ≠ 3 → next_cell Cell.Dead n = Cell.Dead) := by
  refine ⟨tick_getD u hu hb hr hc, rfl, ?_, ?_, ?_, ?_, ?_⟩
  · intro n hn
    simp only [next_cell]
    rw [if_pos hn]
  · intro n hn
    have h2 : ¬ n < 2 := by omega
    have h4 : n < 4 := by omega
    simp only [next_cell]
    rw [if_neg h2, if_pos h4]
  · intro n hn
    have h2 : ¬ n < 2 := by omega
    have h4 : ¬ n < 4 := by omega
    simp only [next_cell]
    rw [if_neg h2, if_neg h4]
  · simp [next_cell]
  · intro n hn
    simp only [next_cell]
    rw [if_neg hn]

theorem tick_spec_witness :
    (sampleU.inv ∧ sampleU.width * sampleU.height < U32_MOD ∧ 0 < sampleU.width ∧
      0 < sampleU.height ∧ 1 < sampleU.height ∧ 0 < sampleU.width) ∧
    (((sampleU.tick).curCells.getD (1 * sampleU.width + 0) Cell.Dead =
      next_cell (cellAt sampleU.curCells (1 * sampleU.width + 0))
        (sampleU.live_neighbor_count 1 0)) ∧
    (sampleU.tick).cells_idx = sampleU.cells_idx ^^^ 1 ∧
    (∀ n, n < 2 → next_cell Cell.Alive n = Cell.Dead) ∧
    (∀ n, n = 2 ∨ n = 3 → next_cell Cell.Alive n = Cell.Alive) ∧
    (∀ n, 4 ≤ n → next_cell Cell.Alive n = Cell.Dead) ∧
    next_cell Cell.Dead 3 = Cell.Alive ∧
    (∀ n, n ≠ 3 → next_cell Cell.Dead n = Cell.Dead)) :=
  ⟨⟨by decide, by decide, by decide, by decide, by decide, by decide⟩,
   tick_spec sampleU (by decide) (by decide) (by decide) (by decide) 1 0
     (by decide) (by decide)⟩

theorem live_neighbor_count_le_eight (u : Universe) (r c : Nat) :
    u.live_neighbor_count r c ≤ 8 := by
  simp only [Universe.live_neighbor_count]
  exact Nat.add_le_add (Nat.add_le_add (Nat.add_le_add (Nat.add_le_add
    (Nat.add_le_add (Nat.add_le_add (Nat.add_le_add (Nat.add_le_add
      (Nat.le_refl 0) (toNat_le_one _)) (toNat_le_one _)) (toNat_le_one _))
      (toNat_le_one _)) (toNat_le_one _)) (toNat_le_one _)) (toNat_le_one _))
    (toNat_le_one _)

/-- C2: for a well-formed universe and in-range `(r, c)`,
`live_neighbor_count r c` equals the sum of the Alive/Dead discriminants of
the current buffer at the eight toroidal neighbor positions (north wraps to
`height-1` at row 0, south wraps to 0 at row `height-1`, and symmetrically
west/east over the width), it lies in `[0, 8]`, and on the 8×8 grid whose
only Alive cell is `(0,0)` we get `live_neighbor_count 7 7 = 1` and
`live_neighbor_count 0 1 = 1`. -/
theorem live_neighbor_count_spec (u : Universe) (hu : u.inv)
    (hb : u.width * u.height < U32_MOD) (r c : Nat)
    (hr : r < u.height) (hc : c < u.width) :
    (u.live_neighbor_count r c =
      (cellAt u.curCells ((if r = 0 then u.height - 1 else r - 1) * u.width +
        (if c = 0 then u.width - 1 else c - 1))).toNat +
      (cellAt u.curCells ((if r = 0 then u.height - 1 else r - 1) * u.width + c)).toNat +
      (cellAt u.curCells ((if r = 0 then u.height - 1 else r - 1) * u.width +
        (if c = u.width - 1 then 0 else c + 1))).toNat +
      (cellAt u.curCells (r * u.width + (if c = 0 then u.width - 1 else c - 1))).toNat +
      (cellAt u.curCells (r * u.width + (if c = u.width - 1 then 0 else c + 1))).toNat +
      (cellAt u.curCells ((if r = u.height - 1 then 0 else r + 1) * u.width +
        (if c = 0 then u.width - 1 else c - 1))).toNat +
      (cellAt u.curCells ((if r = u.height - 1 then 0 else r + 1) * u.width + c)).toNat +
      (cellAt u.curCells ((if r = u.height - 1 then 0 else r + 1) * u.width +
        (if c = u.width - 1 then 0 else c + 1))).toNat) ∧
    u.live_neighbor_count r c ≤ 8 ∧
    onlyTopLeft.live_neighbor_count 7 7 = 1 ∧
    onlyTopLeft.live_neighbor_count 0 1 = 1 := by
  have hN : (if r = 0 then u.height - 1 else r - 1) < u.height := by split <;> omega
  have hS : (if r = u.height - 1 then 0 else r + 1) < u.height := by split <;> omega
  have hW : (if c = 0 then u.width - 1 else c - 1) < u.width := by split <;> omega
  have hE : (if c = u.width - 1 then 0 else c + 1) < u.width := by split <;> omega
  refine ⟨?_, live_neighbor_count_le_eight u r c, by decide, by decide⟩
  simp only [Universe.live_neighbor_count]
  rw [get_index_eq u hN hW hb, get_index_eq u hN hc hb, get_index_eq u hN hE hb,
    get_index_eq u hr hW hb, get_index_eq u hr hE hb,
    get_index_eq u hS hW hb, get_index_eq u hS hc hb, get_index_eq u hS hE hb]
  omega

theorem live_neighbor_count_spec_witness :
    (sampleU.inv ∧ sampleU.width * sampleU.height < U32_MOD ∧ 0 < sampleU.height ∧
      1 < sampleU.width) ∧
    ((sampleU.live_neighbor_count 0 1 =
      (cellAt sampleU.curCells ((if 0 = 0 then sampleU.height - 1 else 0 - 1) * sampleU.width +
        (if 1 = 0 then sampleU.width - 1 else 1 - 1))).toNat +
      (cellAt sampleU.curCells ((if 0 = 0 then sampleU.height - 1 else 0 - 1) * sampleU.width + 1)).toNat +
      (cellAt sampleU.curCells ((if 0 = 0 then sampleU.height - 1 else 0 - 1) * sampleU.width +
        (if 1 = sampleU.width - 1 then 0 else 1 + 1))).toNat +
      (cellAt sampleU.curCells (0 * sampleU.width + (if 1 = 0 then sampleU.width - 1 else 1 - 1))).toNat +
      (cellAt sampleU.curCells (0 * sampleU.width + (if 1 = sampleU.width - 1 then 0 else 1 + 1))).toNat +
      (cellAt sampleU.curCells ((if 0 = sampleU.height - 1 then 0 else 0 + 1) * sampleU.width +
        (if 1 = 0 then sampleU.width - 1 else 1 - 1))).toNat +
      (cellAt sampleU.curCells ((if 0 = sampleU.height - 1 then 0 else 0 + 1) * sampleU.width + 1)).toNat +
      (cellAt sampleU.curCells ((if 0 = sampleU.height - 1 then 0 else 0 + 1) * sampleU.width +
        (if 1 = sampleU.width - 1 then 0 else 1 + 1))).toNat) ∧
    sampleU.live_neighbor_count 0 1 ≤ 8 ∧
    onlyTopLeft.live_neighbor_count 7 7 = 1 ∧
    onlyTopLeft.live_neighbor_count 0 1 = 1) :=
  ⟨⟨by decide, by decide, by decide, by decide⟩,
   live_neighbor_count_spec sampleU (by decide) (by decide) 0 1 (by decide) (by decide)⟩

/-- C3: `new` always returns dimensions that are multiples of 8; when either
requested dimension is not a multiple of 8, both are floor-divided by 8 and
re-multiplied by 8 and exactly one alert is emitted; when both conform the
dimensions are kept and no alert is emitted. -/
theorem new_clamp_spec (width height : Nat) (rand : Nat → ℚ) :
    (Universe.new width height rand).1.width % 8 = 0 ∧
    (Universe.new width height rand).1.height % 8 = 0 ∧
    (Universe.new width height rand).1.width =
      (if width % 8 = 0 ∧ height % 8 = 0 then width else width / 8 * 8) ∧
    (Universe.new width height rand).1.height =
      (if width % 8 = 0 ∧ height % 8 = 0 then height else height / 8 * 8) ∧
    (Universe.new width height rand).2 =
      (if width % 8 = 0 ∧ height % 8 = 0 then 0 else 1) := by
  by_cases hcond : width % 8 ≠ 0 ∨ height % 8 ≠ 0
  · have hne : ¬ (width % 8 = 0 ∧ height % 8 = 0) := by tauto
    simp only [Universe.new, if_pos hcond, if_neg hne]
    exact ⟨by omega, by omega, trivial, trivial, trivial⟩
  · have heq : width % 8 = 0 ∧ height % 8 = 0 := by tauto
    simp only [Universe.new, if_neg hcond, if_pos heq]
    exact ⟨heq.1, heq.2, trivial, trivial, trivial⟩

theorem getD_map_range (f : Nat → Cell) (n i : Nat) (hi : i < n) :
    ((List.range n).map f).getD i Cell.Dead = f i := by
  have hlen : i < ((List.range n).map f).length := by simpa using hi
  rw [List.getD_eq_getElem _ _ hlen]
  simp

/-- C4: `new` fills the primary buffer with one randomness draw per cell in
order (`Alive` exactly when the draw is `< 0.5`), pre-fills the scratch
buffer entirely with `Alive` at the same length `width*height`, and returns
selector 0, so the randomly initialized buffer is current. -/
theorem new_buffers_spec (width height : Nat) (rand : Nat → ℚ)
    (hb : (Universe.new width height rand).1.width *
      (Universe.new width height rand).1.height < U32_MOD) :
    ((Universe.new width height rand).1.cells 0).length =
      (Universe.new width height rand).1.width *
        (Universe.new width height rand).1.height ∧
    (∀ i, i < (Universe.new width height rand).1.width *
        (Universe.new width height rand).1.height →
      ((Universe.new width height rand).1.cells 0).getD i Cell.Dead =
        (if rand i < 1 / 2 then Cell.Alive else Cell.Dead)) ∧
    (Universe.new width height rand).1.cells 1 =
      List.replicate ((Universe.new width height rand).1.width *
        (Universe.new width height rand).1.height) Cell.Alive ∧
    (Universe.new width height rand).1.cells_idx = 0 ∧
    (Universe.new width height rand).1.curCells =
      (Universe.new width height rand).1.cells 0 := by
  revert hb
  simp only [Universe.new, Universe.curCells, reduceIte]
  intro hb
  rw [Nat.mod_eq_of_lt hb]
  refine ⟨by simp, ?_, rfl, trivial, trivial⟩
  intro i hi
  exact getD_map_range _ _ i hi

theorem new_buffers_spec_witness :
    ((Universe.new 8 8 halfRand).1.width *
      (Universe.new 8 8 halfRand).1.height < U32_MOD) ∧
    (((Universe.new 8 8 halfRand).1.cells 0).length =
      (Universe.new 8 8 halfRand).1.width *
        (Universe.new 8 8 halfRand).1.height ∧
    (∀ i, i < (Universe.new 8 8 halfRand).1.width *
        (Universe.new 8 8 halfRand).1.height →
      ((Universe.new 8 8 halfRand).1.cells 0).getD i Cell.Dead =
        (if halfRand i < 1 / 2 then Cell.Alive else Cell.Dead)) ∧
    (Universe.new 8 8 halfRand).1.cells 1 =
      List.replicate ((Universe.new 8 8 halfRand).1.width *
        (Universe.new 8 8 halfRand).1.height) Cell.Alive ∧
    (Universe.new 8 8 halfRand).1.cells_idx = 0 ∧
    (Universe.new 8 8 halfRand).1.curCells =
      (Universe.new 8 8 halfRand).1.cells 0) :=
  ⟨by decide, new_buffers_spec 8 8 halfRand (by decide)⟩

theorem toggle_curCells (u : Universe) (r c : Nat) :
    (u.toggle_cell r c).curCells =
      u.curCells.set (u.get_index r c) (cellAt u.curCells (u.get_index r c)).toggle := by
  show (if u.cells_idx = u.cells_idx then _ else _) = _
  rw [if_pos rfl]
  rfl

theorem toggle_cells_ne (u : Universe) (r c j : Nat) (hj : j ≠ u.cells_idx) :
    (u.toggle_cell r c).cells j = u.cells j := by
  show (if j = u.cells_idx then _ else _) = _
  rw [if_neg hj]

/-- C5: `toggle_cell r c` flips exactly the current-buffer cell at linear
index `r*width+c` and changes nothing else: every other index of the
current buffer, the scratch buffer, the selector, and the dimensions are
unchanged (so the generation does not advance). -/
theorem toggle_cell_spec (u : Universe) (hu : u.inv)
    (hb : u.width * u.height < U32_MOD) (r c : Nat)
    (hr : r < u.height) (hc : c < u.width) :
    ((u.toggle_cell r c).curCells.getD (r * u.width + c) Cell.Dead =
      (u.curCells.getD (r * u.width + c) Cell.Dead).toggle) ∧
    (∀ i, i ≠ r * u.width + c →
      (u.toggle_cell r c).curCells.getD i Cell.Dead = u.curCells.getD i Cell.Dead) ∧
    (u.toggle_cell r c).cells (u.cells_idx ^^^ 1) = u.cells (u.cells_idx ^^^ 1) ∧
    (u.toggle_cell r c).cells_idx = u.cells_idx ∧
    (u.toggle_cell r c).width = u.width ∧
    (u.toggle_cell r c).height = u.height := by
  have hcur := toggle_curCells u r c
  rw [get_index_eq u hr hc hb] at hcur
  have hne : u.cells_idx ^^^ 1 ≠ u.cells_idx := by
    have hlt2 := hu.1
    have hid : u.cells_idx = 0 ∨ u.cells_idx = 1 := by omega
    rcases hid with h | h <;> rw [h] <;> decide
  refine ⟨?_, ?_, toggle_cells_ne u r c _ hne, rfl, rfl, rfl⟩
  · rw [hcur]
    exact getD_set_self (by rw [cur_length u hu]; exact index_lt hr hc)
  · intro i hi
    rw [hcur]
    exact getD_set_ne (Ne.symm hi)

theorem toggle_cell_spec_witness :
    (sampleU.inv ∧ sampleU.width * sampleU.height < U32_MOD ∧ 1 < sampleU.height ∧
      1 < sampleU.width) ∧
    (((sampleU.toggle_cell 1 1).curCells.getD (1 * sampleU.width + 1) Cell.Dead =
      (sampleU.curCells.getD (1 * sampleU.width + 1) Cell.Dead).toggle) ∧
    (∀ i, i ≠ 1 * sampleU.width + 1 →
      (sampleU.toggle_cell 1 1).curCells.getD i Cell.Dead =
        sampleU.curCells.getD i Cell.Dead) ∧
    (sampleU.toggle_cell 1 1).cells (sampleU.cells_idx ^^^ 1) =
      sampleU.cells (sampleU.cells_idx ^^^ 1) ∧
    (sampleU.toggle_cell 1 1).cells_idx = sampleU.cells_idx ∧
    (sampleU.toggle_cell 1 1).width = sampleU.width ∧
    (sampleU.toggle_cell 1 1).height = sampleU.height) :=
  ⟨⟨by decide, by decide, by decide, by decide⟩,
   toggle_cell_spec sampleU (by decide) (by decide) 1 1 (by decide) (by decide)⟩

theorem tick_cells_ne (u : Universe) (j : Nat) (hj : j ≠ u.cells_idx ^^^ 1) :
    (u.tick).cells j = u.cells j := by
  show (if j = u.cells_idx ^^^ 1 then _ else _) = _
  rw [if_neg hj]

theorem tick_new_buf_length (u : Universe) :
    ((u.tick).cells (u.cells_idx ^^^ 1)).length =
      (u.cells (u.cells_idx ^^^ 1)).length := by
  have h : (u.tick).curCells.length = (u.cells (u.cells_idx ^^^ 1)).length := by
    rw [tick_curCells_eq u, foldl_set_length]
  exact h

theorem new_inv (width height : Nat) (rand : Nat → ℚ)
    (hb : width * height < U32_MOD) : (Universe.new width height rand).1.inv := by
  have hWle : (if width % 8 ≠ 0 ∨ height % 8 ≠ 0 then width / 8 * 8 else width) ≤ width := by
    split
    · exact Nat.div_mul_le_self width 8
    · exact Nat.le_refl width
  have hHle : (if width % 8 ≠ 0 ∨ height % 8 ≠ 0 then height / 8 * 8 else height) ≤ height := by
    split
    · exact Nat.div_mul_le_self height 8
    · exact Nat.le_refl height
  have hprod : (if width % 8 ≠ 0 ∨ height % 8 ≠ 0 then width / 8 * 8 else width) *
      (if width % 8 ≠ 0 ∨ height % 8 ≠ 0 then height / 8 * 8 else height) < U32_MOD :=
    Nat.lt_of_le_of_lt (Nat.mul_le_mul hWle hHle) hb
  unfold Universe.inv
  simp only [Universe.new, reduceIte]
  rw [Nat.mod_eq_of_lt hprod]
  exact ⟨by omega, by simp, by simp⟩

theorem tick_inv (u : Universe) (hu : u.inv) :
    (u.tick).inv ∧ ((u.tick).cells 0).length = (u.cells 0).length ∧
      ((u.tick).cells 1).length = (u.cells 1).length := by
  obtain ⟨hi, h0, h1⟩ := hu
  have hid : u.cells_idx = 0 ∨ u.cells_idx = 1 := by omega
  have hnew := tick_new_buf_length u
  rcases hid with h | h
  · have e1 : u.cells_idx ^^^ 1 = 1 := by rw [h]; decide
    have hz : (u.tick).cells 0 = u.cells 0 := tick_cells_ne u 0 (by rw [e1]; decide)
    have ho : ((u.tick).cells 1).length = (u.cells 1).length := by
      rw [← e1]; exact hnew
    refine ⟨⟨?_, ?_, ?_⟩, by rw [hz], ho⟩
    · rw [tick_cells_idx, e1]; decide
    · show ((u.tick).cells 0).length = u.width * u.height
      rw [hz]; exact h0
    · show ((u.tick).cells 1).length = u.width * u.height
      rw [ho]; exact h1
  · have e1 : u.cells_idx ^^^ 1 = 0 := by rw [h]; decide
    have hz : (u.tick).cells 1 = u.cells 1 := tick_cells_ne u 1 (by rw [e1]; decide)
    have ho : ((u.tick).cells 0).length = (u.cells 0).length := by
      rw [← e1]; exact hnew
    refine ⟨⟨?_, ?_, ?_⟩, ho, by rw [hz]⟩
    · rw [tick_cells_idx, e1]; decide
    · show ((u.tick).cells 0).length = u.width * u.height
      rw [ho]; exact h0
    · show ((u.tick).cells 1).length = u.width * u.height
      rw [hz]; exact h1

theorem toggle_inv (u : Universe) (hu : u.inv) (r c : Nat) :
    (u.toggle_cell r c).inv ∧
      ((u.toggle_cell r c).cells 0).length = (u.cells 0).length ∧
      ((u.toggle_cell r c).cells 1).length = (u.cells 1).length := by
  obtain ⟨hi, h0, h1⟩ := hu
  have hid : u.cells_idx = 0 ∨ u.cells_idx = 1 := by omega
  have hset : ((u.toggle_cell r c).cells u.cells_idx).length =
      (u.cells u.cells_idx).length := by
    have hcur := toggle_curCells u r c
    have : (u.toggle_cell r c).curCells.length = u.curCells.length := by
      rw [hcur, List.length_set]
    exact this
  rcases hid with h | h
  · have hz : (u.toggle_cell r c).cells 1 = u.cells 1 :=
      toggle_cells_ne u r c 1 (by rw [h]; decide)
    have ho : ((u.toggle_cell r c).cells 0).length = (u.cells 0).length := by
      rw [← h]; exact hset
    exact ⟨⟨by rw [show (u.toggle_cell r c).cells_idx = u.cells_idx from rfl]; omega,
      by rw [show (u.toggle_cell r c).width = u.width from rfl,
        show (u.toggle_cell r c).height = u.height from rfl, ho]; exact h0,
      by rw [show (u.toggle_cell r c).width = u.width from rfl,
        show (u.toggle_cell r c).height = u.height from rfl, hz]; exact h1⟩,
      ho, by rw [hz]⟩
  · have hz : (u.toggle_cell r c).cells 0 = u.cells 0 :=
      toggle_cells_ne u r c 0 (by rw [h]; decide)
    have ho : ((u.toggle_cell r c).cells 1).length = (u.cells 1).length := by
      rw [← h]; exact hset
    exact ⟨⟨by rw [show (u.toggle_cell r c).cells_idx = u.cells_idx from rfl]; omega,
      by rw [show (u.toggle_cell r c).width = u.width from rfl,
        show (u.toggle_cell r c).height = u.height from rfl, hz]; exact h0,
      by rw [show (u.toggle_cell r c).width = u.width from rfl,
        show (u.toggle_cell r c).height = u.height from rfl, ho]; exact h1⟩,
      by rw [hz], ho⟩

/-- C7: the state invariants (both buffer lengths equal `width*height`, the
selector is 0 or 1) are established by `new` and preserved by `tick` and
`toggle_cell`; `tick` flips the selector between 0 and 1 without changing
either buffer's length, and `toggle_cell` changes neither lengths nor
selector.  (`render` is a pure function of the state in this embedding and
touches nothing.) -/
theorem inv_preservation (width height : Nat) (rand : Nat → ℚ) (u : Universe)
    (hu : u.inv) (hb : width * height < U32_MOD) (r c : Nat) :
    (Universe.new width height rand).1.inv ∧
    (u.tick).inv ∧
    (u.tick).cells_idx < 2 ∧
    (u.tick).cells_idx ≠ u.cells_idx ∧
    ((u.tick).cells 0).length = (u.cells 0).length ∧
    ((u.tick).cells 1).length = (u.cells 1).length ∧
    (u.toggle_cell r c).inv ∧
    (u.toggle_cell r c).cells_idx = u.cells_idx ∧
    ((u.toggle_cell r c).cells 0).length = (u.cells 0).length ∧
    ((u.toggle_cell r c).cells 1).length = (u.cells 1).length := by
  obtain ⟨ht, ht0, ht1⟩ := tick_inv u hu
  obtain ⟨hg, hg0, hg1⟩ := toggle_inv u hu r c
  have hflip : (u.tick).cells_idx ≠ u.cells_idx := by
    have hlt2 := hu.1
    have hid : u.cells_idx = 0 ∨ u.cells_idx = 1 := by omega
    rw [tick_cells_idx]
    rcases hid with h | h <;> rw [h] <;> decide
  exact ⟨new_inv width height rand hb, ht, ht.1, hflip, ht0, ht1, hg, rfl, hg0, hg1⟩

theorem inv_preservation_witness :
    (sampleU.inv ∧ 8 * 16 < U32_MOD) ∧
    ((Universe.new 8 16 halfRand).1.inv ∧
    (sampleU.tick).inv ∧
    (sampleU.tick).cells_idx < 2 ∧
    (sampleU.tick).cells_idx ≠ sampleU.cells_idx ∧
    ((sampleU.tick).cells 0).length = (sampleU.cells 0).length ∧
    ((sampleU.tick).cells 1).length = (sampleU.cells 1).length ∧
    (sampleU.toggle_cell 0 1).inv ∧
    (sampleU.toggle_cell 0 1).cells_idx = sampleU.cells_idx ∧
    ((sampleU.toggle_cell 0 1).cells 0).length = (sampleU.cells 0).length ∧
    ((sampleU.toggle_cell 0 1).cells 1).length = (sampleU.cells 1).length) :=
  ⟨⟨by decide, by decide⟩,
   inv_preservation 8 16 halfRand sampleU (by decide) (by decide) 0 1⟩

theorem live_neighbor_count_congr (u1 u2 : Universe) (hw : u1.width = u2.width)
    (hh : u1.height = u2.height) (hcur : u1.curCells = u2.curCells) (r c : Nat) :
    u1.live_neighbor_count r c = u2.live_neighbor_count r c := by
  simp only [Universe.live_neighbor_count, Universe.get_index, hw, hh, hcur]

theorem list_ext_getD (l1 l2 : List Cell) (hl : l1.length = l2.length)
    (h : ∀ i, i < l1.length → l1.getD i Cell.Dead = l2.getD i Cell.Dead) :
    l1 = l2 := by
  apply List.ext_getElem hl
  intro i h1 h2
  have hi := h i h1
  rwa [List.getD_eq_getElem _ _ h1, List.getD_eq_getElem _ _ h2] at hi

/-- C8: `tick` is deterministic given the current state: two well-formed
universes with identical width, height and current-buffer contents produce
identical next current-buffer contents, independently of the scratch
buffer's prior contents and of the selector value. -/
theorem tick_deterministic (u1 u2 : Universe) (hu1 : u1.inv) (hu2 : u2.inv)
    (hb : u1.width * u1.height < U32_MOD) (hw : u1.width = u2.width)
    (hh : u1.height = u2.height) (hcur : u1.curCells = u2.curCells) :
    (u1.tick).curCells = (u2.tick).curCells := by
  have hb2 : u2.width * u2.height < U32_MOD := by rw [← hw, ← hh]; exact hb
  have hlen1 := tick_curCells_length u1 hu1
  have hlen2 := tick_curCells_length u2 hu2
  apply list_ext_getD
  · rw [hlen1, hlen2, hw, hh]
  · intro i hi
    rw [hlen1] at hi
    have hw1 : 0 < u1.width := by
      rcases Nat.eq_zero_or_pos u1.width with h0 | h0
      · rw [h0] at hi; simp at hi
      · exact h0
    have hr : i / u1.width < u1.height := by
      rw [Nat.div_lt_iff_lt_mul hw1, Nat.mul_comm]
      exact hi
    have hc : i % u1.width < u1.width := Nat.mod_lt _ hw1
    have hieq : i / u1.width * u1.width + i % u1.width = i := by
      rw [Nat.mul_comm (i / u1.width) u1.width]
      exact Nat.div_add_mod i u1.width
    have k1 := tick_getD u1 hu1 hb hr hc
    have hr2 : i / u1.width < u2.height := hh ▸ hr
    have hc2 : i % u1.width < u2.width := hw ▸ hc
    have k2 := tick_getD u2 hu2 hb2 hr2 hc2
    rw [← hw] at k2
    rw [hieq] at k1 k2
    rw [k1, k2, hcur, live_neighbor_count_congr u1 u2 hw hh hcur]

theorem tick_deterministic_witness :
    (sampleU.inv ∧ sampleV.inv ∧ sampleU.width * sampleU.height < U32_MOD ∧
      sampleU.width = sampleV.width ∧ sampleU.height = sampleV.height ∧
      sampleU.curCells = sampleV.curCells) ∧
    (sampleU.tick).curCells = (sampleV.tick).curCells :=
  ⟨⟨by decide, by decide, by decide, by decide, by decide, by decide⟩,
   tick_deterministic sampleU sampleV (by decide) (by decide) (by decide)
     (by decide) (by decide) (by decide)⟩

theorem drop_take_eq_map_range (l : List Cell) (a w : Nat) (h : a + w ≤ l.length) :
    (l.drop a).take w = (List.range w).map (fun c => l.getD (a + c) Cell.Dead) := by
  apply List.ext_getElem
  · simp only [List.length_take, List.length_drop, List.length_map, List.length_range]
    omega
  · intro i h1 h2
    have hiw : i < w := by simpa using h2
    have hal : a + i < l.length := by omega
    simp only [List.getElem_take, List.getElem_drop, List.getElem_map, List.getElem_range]
    rw [List.getD_eq_getElem _ _ hal]

theorem chunksList_eq (w : Nat) (hw : 0 < w) :
    ∀ (h : Nat) (l : List Cell), l.length = w * h →
      chunksList w l = (List.range h).map (fun r => (l.drop (r * w)).take w) := by
  intro h
  induction h with
  | zero =>
    intro l hl
    have hnil : l = [] := List.length_eq_zero.mp (by simpa using hl)
    subst hnil
    rw [chunksList]
    simp [Nat.pos_iff_ne_zero.mp hw]
  | succ h ih =>
    intro l hl
    have hlpos : l ≠ [] := by
      intro h0
      rw [h0] at hl
      simp only [List.length_nil] at hl
      have hpos : 0 < w * (h + 1) := Nat.mul_pos hw (Nat.succ_pos h)
      omega
    rw [chunksList, if_neg (Nat.pos_iff_ne_zero.mp hw), if_neg hlpos]
    have hdl : (l.drop w).length = w * h := by
      simp only [List.length_drop, hl]
      have : w * (h + 1) = w * h + w := by ring
      omega
    rw [ih (l.drop w) hdl, List.range_succ_eq_map]
    simp only [List.map_cons, List.map_map]
    congr 1
    · simp
    · apply List.map_congr_left
      intro r _
      simp only [Function.comp]
      rw [List.drop_drop]
      have harith : w + r * w = Nat.succ r * w := by
        rw [Nat.succ_mul]
        omega
      rw [harith]

theorem render_eq (u : Universe) (hu : u.inv) (hw : 0 < u.width) :
    u.render = some (String.join ((List.range u.height).map (fun r =>
      lineStr ((List.range u.width).map
        (fun c => u.curCells.getD (r * u.width + c) Cell.Dead))))) := by
  unfold Universe.render
  rw [if_neg (Nat.pos_iff_ne_zero.mp hw)]
  congr 1
  congr 1
  rw [chunksList_eq u.width hw u.height u.curCells (cur_length u hu)]
  rw [List.map_map]
  apply List.map_congr_left
  intro r hr
  rw [List.mem_range] at hr
  simp only [Function.comp]
  congr 1
  have hbound : r * u.width + u.width ≤ u.curCells.length := by
    rw [cur_length u hu]
    calc r * u.width + u.width = (r + 1) * u.width := by ring
    _ ≤ u.height * u.width := Nat.mul_le_mul_right _ hr
    _ = u.width * u.height := Nat.mul_comm _ _
  exact drop_take_eq_map_range u.curCells (r * u.width) u.width hbound

/-- C6 counterexample: `new(0, 16)` performs no clamping and no alert (both
dimensions are multiples of 8), yet on the resulting width-0 grid `render`
panics (`slice::chunks` with chunk size 0, modelled as `none`): there is no
output text at all, in particular not `height = 16` newline-terminated
lines. -/
theorem render_zero_width_cex :
    (Universe.new 0 16 (fun _ => 0)).2 = 0 ∧
    (Universe.new 0 16 (fun _ => 0)).1.height = 16 ∧
    (Universe.new 0 16 (fun _ => 0)).1.render = none := by decide

/-- C6 (amended to grids of positive width, since `render` panics when the
width is 0): `render` is a pure function of the state returning exactly
`height` newline-terminated lines in row order, each consisting of exactly
`width` glyphs, one per current-buffer cell, with two distinct fixed glyphs
for Dead and Alive. -/
theorem render_spec (u : Universe) (hu : u.inv) (hw : 0 < u.width) :
    u.render = some (String.join ((List.range u.height).map (fun r =>
      lineStr ((List.range u.width).map
        (fun c => u.curCells.getD (r * u.width + c) Cell.Dead))))) ∧
    (chunksList u.width u.curCells).length = u.height ∧
    (∀ line ∈ chunksList u.width u.curCells, line.length = u.width) ∧
    cellGlyph Cell.Dead ≠ cellGlyph Cell.Alive := by
  refine ⟨render_eq u hu hw, ?_, ?_, by decide⟩
  · rw [chunksList_eq u.width hw u.height u.curCells (cur_length u hu)]
    simp
  · intro line hline
    rw [chunksList_eq u.width hw u.height u.curCells (cur_length u hu)] at hline
    rw [List.mem_map] at hline
    obtain ⟨r, hr, hlineEq⟩ := hline
    rw [List.mem_range] at hr
    have h2 : r * u.width + u.width ≤ u.width * u.height := by
      calc r * u.width + u.width = (r + 1) * u.width := by ring
      _ ≤ u.height * u.width := Nat.mul_le_mul_right _ hr
      _ = u.width * u.height := Nat.mul_comm _ _
    rw [← hlineEq]
    simp only [List.length_take, List.length_drop, cur_length u hu]
    omega

theorem render_spec_witness :
    (sampleU.inv ∧ 0 < sampleU.width) ∧
    (sampleU.render = some (String.join ((List.range sampleU.height).map (fun r =>
      lineStr ((List.range sampleU.width).map
        (fun c => sampleU.curCells.getD (r * sampleU.width + c) Cell.Dead))))) ∧
    (chunksList sampleU.width sampleU.curCells).length = sampleU.height ∧
    (∀ line ∈ chunksList sampleU.width sampleU.curCells,
      line.length = sampleU.width) ∧
    cellGlyph Cell.Dead ≠ cellGlyph Cell.Alive) :=
  ⟨⟨by decide, by decide⟩, render_spec sampleU (by decide) (by decide)⟩

/-- C10: the two fixed glyphs are concretely `"◼️"` (U+25FC U+FE0F) for a
Dead cell and `"◻️"` (U+25FB U+FE0F) for an Alive cell, and `render`'s
output is exactly these per-cell glyph sequences joined with one newline
per row and nothing else. -/
theorem glyphs_spec (u : Universe) (hu : u.inv) (hw : 0 < u.width) :
    (cellGlyph Cell.Dead).data = [Char.ofNat 0x25FC, Char.ofNat 0xFE0F] ∧
    (cellGlyph Cell.Alive).data = [Char.ofNat 0x25FB, Char.ofNat 0xFE0F] ∧
    u.render = some (String.join ((List.range u.height).map (fun r =>
      String.join (((List.range u.width).map
        (fun c => u.curCells.getD (r * u.width + c) Cell.Dead)).map
        (fun cell => if cell = Cell.Dead then "◼️" else "◻️")) ++ "\n"))) := by
  refine ⟨by decide, by decide, ?_⟩
  rw [render_eq u hu hw]
  rfl

theorem glyphs_spec_witness :
    (sampleV.inv ∧ 0 < sampleV.width) ∧
    ((cellGlyph Cell.Dead).data = [Char.ofNat 0x25FC, Char.ofNat 0xFE0F] ∧
    (cellGlyph Cell.Alive).data = [Char.ofNat 0x25FB, Char.ofNat 0xFE0F] ∧
    sampleV.render = some (String.join ((List.range sampleV.height).map (fun r =>
      String.join (((List.range sampleV.width).map
        (fun c => sampleV.curCells.getD (r * sampleV.width + c) Cell.Dead)).map
        (fun cell => if cell = Cell.Dead then "◼️" else "◻️")) ++ "\n")))) :=
  ⟨⟨by decide, by decide⟩, glyphs_spec sampleV (by decide) (by decide)⟩

theorem pairList_width_zero : ∀ h : Nat, pairList h 0 = [] := by
  intro h
  induction h with
  | zero => rfl
  | succ h ih => simp [pairList, ih]

/-- C9 counterexample: `new(0, 8)` is legal, unclamped and alert-free, and
produces an empty grid — but `render` on it panics (`chunks(0)`, modelled
as `none`) instead of executing to completion. -/
theorem empty_grid_render_cex :
    (Universe.new 0 8 (fun _ => 0)).2 = 0 ∧
    (Universe.new 0 8 (fun _ => 0)).1.width = 0 ∧
    (Universe.new 0 8 (fun _ => 0)).1.cells 0 = [] ∧
    (Universe.new 0 8 (fun _ => 0)).1.render = none := by decide

theorem new_zero_width (height : Nat) (rand : Nat → ℚ) :
    (Universe.new 0 height rand).1.width = 0 ∧
    (Universe.new 0 height rand).1.cells 0 = [] ∧
    (Universe.new 0 height rand).1.cells 1 = [] ∧
    (Universe.new 0 height rand).1.render = none := by
  by_cases hc : (0 : Nat) % 8 ≠ 0 ∨ height % 8 ≠ 0 <;>
    simp [Universe.new, hc, Universe.render]

theorem tick_empty (u : Universe) (hw0 : u.width = 0) (h0 : u.cells 0 = [])
    (h1 : u.cells 1 = []) (hidx : u.cells_idx = 0) :
    (u.tick).cells 0 = [] ∧ (u.tick).cells 1 = [] := by
  have hnew : u.cells_idx ^^^ 1 = 1 := by rw [hidx]; decide
  constructor
  · rw [tick_cells_ne u 0 (by rw [hnew]; decide), h0]
  · have hcur : (u.tick).cells 1 = (u.tick).curCells := by
      show _ = (u.tick).cells (u.tick).cells_idx
      rw [tick_cells_idx, hnew]
    rw [hcur, tick_curCells_eq u, hw0, pairList_width_zero, List.foldl_nil, hnew, h1]

/-- C9 (amended): `new` succeeds for every pair of requested dimensions
with no failure path other than the clamp-and-warn (at most one alert, and
exactly when a dimension is not a multiple of 8); dimensions of 0 are
legal and produce an empty grid, on which `tick` completes as a no-op over
zero cells — but `render` panics on any width-0 grid (`chunks(0)`,
modelled as `none`) rather than completing; `render` completes on every
grid with positive width. -/
theorem new_total_spec (width height : Nat) (rand : Nat → ℚ) (u : Universe)
    (hpos : 0 < u.width) :
    (Universe.new width height rand).2 ≤ 1 ∧
    ((Universe.new width height rand).2 =
      if width % 8 = 0 ∧ height % 8 = 0 then 0 else 1) ∧
    (Universe.new 0 height rand).1.width = 0 ∧
    (Universe.new 0 height rand).1.cells 0 = [] ∧
    (Universe.new 0 height rand).1.cells 1 = [] ∧
    ((Universe.new 0 height rand).1.tick).cells 0 = [] ∧
    ((Universe.new 0 height rand).1.tick).cells 1 = [] ∧
    (Universe.new 0 height rand).1.render = none ∧
    (u.render).isSome = true := by
  obtain ⟨hz0, hz1, hz2, hz3⟩ := new_zero_width height rand
  obtain ⟨ht0, ht1⟩ := tick_empty (Universe.new 0 height rand).1 hz0 hz1 hz2 rfl
  refine ⟨?_, ?_, hz0, hz1, hz2, ht0, ht1, hz3, ?_⟩
  · simp only [Universe.new]
    split <;> omega
  · by_cases hcond : width % 8 ≠ 0 ∨ height % 8 ≠ 0
    · have hne : ¬ (width % 8 = 0 ∧ height % 8 = 0) := by tauto
      simp only [Universe.new, if_pos hcond, if_neg hne]
    · have heq : width % 8 = 0 ∧ height % 8 = 0 := by tauto
      simp only [Universe.new, if_neg hcond, if_pos heq]
  · unfold Universe.render
    rw [if_neg (Nat.pos_iff_ne_zero.mp hpos)]
    rfl

theorem new_total_spec_witness :
    (0 < sampleU.width) ∧
    ((Universe.new 12 8 halfRand).2 ≤ 1 ∧
    ((Universe.new 12 8 halfRand).2 =
      if 12 % 8 = 0 ∧ 8 % 8 = 0 then 0 else 1) ∧
    (Universe.new 0 8 halfRand).1.width = 0 ∧
    (Universe.new 0 8 halfRand).1.cells 0 = [] ∧
    (Universe.new 0 8 halfRand).1.cells 1 = [] ∧
    ((Universe.new 0 8 halfRand).1.tick).cells 0 = [] ∧
    ((Universe.new 0 8 halfRand).1.tick).cells 1 = [] ∧
    (Universe.new 0 8 halfRand).1.render = none ∧
    (sampleU.render).isSome = true) :=
  ⟨by decide, new_total_spec 12 8 halfRand sampleU (by decide)⟩

end WasmGameOfLife
